import Mathlib

/-!
# Verification of `lammps_log_plot.py`

A shallow embedding of the LAMMPS log plotting script: the block segmenter
`parse_lammps_log` and the query logic of `main` (run selection, x-range
filtering, averaging, plotting), together with theorems checking the
natural-language specification against this embedding.

Modelling conventions:
* An input line is a `List Char` (the result of `readlines`, one entry per
  line; trailing newlines are immaterial because every access goes through
  `strip`).  `String` operations of Python (`strip`, `split`, `startswith`)
  are embedded as structurally recursive functions on `List Char` so that
  all definitions evaluate inside the kernel.
* Python `float` values are modelled as exact rationals `ℚ`; `float(token)`
  is the partial function `pyFloat?` implementing the decimal-literal
  grammar (sign, digits, optional fraction, optional exponent).  A raised
  `ValueError` during a row conversion is modelled by `Except.error`.
* The outer `while` loop of `parse_lammps_log` is embedded fuel-indexed
  (`parseLinesF`); fuel `lines.length` is proved sufficient, which is the
  termination argument of the original loop.
-/

deriving instance DecidableEq for Except

namespace LammpsLog

/-- A raw input line, as a list of characters. -/
abbrev Line := List Char

/-- Python `str.strip()`: drop leading and trailing whitespace. -/
def pTrim (cs : List Char) : List Char :=
  ((cs.dropWhile Char.isWhitespace).reverse.dropWhile Char.isWhitespace).reverse

/-- Helper for `pSplit`: accumulates the current (reversed) token. -/
def pSplitAux : List Char → List Char → List (List Char)
  | [], acc => if acc.isEmpty then [] else [acc.reverse]
  | c :: rest, acc =>
    if c.isWhitespace then
      if acc.isEmpty then pSplitAux rest [] else acc.reverse :: pSplitAux rest []
    else pSplitAux rest (c :: acc)

/-- Python `str.split()` with no argument: split on runs of whitespace,
discarding empty tokens. -/
def pSplit (cs : List Char) : List (List Char) := pSplitAux cs []

/-- Numeric value of a list of decimal digit characters. -/
def digitsVal (ds : List Char) : Nat :=
  ds.foldl (fun a c => a * 10 + (c.toNat - '0'.toNat)) 0

/-- Consume an optional leading sign; returns (isNegative, rest). -/
def splitSign : List Char → Bool × List Char
  | '-' :: rest => (true, rest)
  | '+' :: rest => (false, rest)
  | cs => (false, cs)

/-- Split a character list into its leading run of decimal digits and the rest. -/
def splitDigits (cs : List Char) : List Char × List Char :=
  (cs.takeWhile Char.isDigit, cs.dropWhile Char.isDigit)

/-- Read the mantissa `digits [. digits]` of a decimal literal; at least one
digit must be present.  Returns (integer digits, fraction digits, rest). -/
def readMantissa (cs : List Char) : Option (List Char × List Char × List Char) :=
  let p := splitDigits cs
  match p.2 with
  | '.' :: r2 =>
    let q := splitDigits r2
    if p.1.isEmpty && q.1.isEmpty then none else some (p.1, q.1, q.2)
  | _ => if p.1.isEmpty then none else some (p.1, [], p.2)

/-- Read an optional exponent part `e|E [sign] digits`, which must consume the
whole remainder; an absent exponent is `0`. -/
def readExponent : List Char → Option Int
  | [] => some 0
  | c :: rest =>
    if c = 'e' ∨ c = 'E' then
      let s := splitSign rest
      let d := splitDigits s.2
      if d.1.isEmpty ∨ ¬ d.2.isEmpty then none
      else some (if s.1 then -(digitsVal d.1 : Int) else (digitsVal d.1 : Int))
    else none

/-- Python `float(token)` on a whitespace-free token, modelled over `ℚ`:
`[sign] digits [. digits] [e|E [sign] digits]`.  `none` models a raised
`ValueError`. -/
def pyFloat? (t : List Char) : Option ℚ :=
  let s := splitSign t
  match readMantissa s.2 with
  | none => none
  | some (ints, fracs, rest) =>
    match readExponent rest with
    | none => none
    | some e =>
      let m : Int := Int.ofNat (digitsVal (ints ++ fracs))
      let m : Int := if s.1 then -m else m
      let net : Int := e - (fracs.length : Int)
      some (if 0 ≤ net then ((m * 10 ^ net.toNat : Int) : ℚ)
            else (m : ℚ) / ((10 ^ (-net).toNat : Nat) : ℚ))

/-- The characters of the literal `"Step"` that `line.startswith("Step")`
tests for (source line 55). -/
def stepChars : List Char := ['S', 't', 'e', 'p']

/-- Source line 55: a stripped line is detected as the header of a thermo
block iff it starts with the character string `Step` (a string-prefix test,
`str.startswith`, not a first-token test). -/
def isHeaderLine (l : Line) : Bool := stepChars.isPrefixOf (pTrim l)

/-- One run (thermo block): the header tokens as column names, and the data
rows, each a list of parsed values. -/
structure Run where
  columns : List String
  rows : List (List ℚ)
deriving DecidableEq

/-- The acceptance test of the inner loop (source lines 61-78): a stripped
line is consumed into the current block iff it is non-empty, its first
whitespace token parses as a float, and its token count equals the header's
column count `k`.  All three failures `break` without advancing the cursor,
so they are combined into one test. -/
def acceptsLine (k : Nat) (l : Line) : Bool :=
  let line := pTrim l
  if line.isEmpty then false
  else
    match (pSplit line).head? with
    | none => false
    | some t0 => (pyFloat? t0).isSome && (pSplit line).length == k

/-- Left-to-right conversion of every token to a float, failing at the first
token that does not parse (source line 81, `[float(p) for p in parts]`). -/
def floatsOf : List (List Char) → Option (List ℚ)
  | [] => some []
  | t :: ts =>
    match pyFloat? t with
    | none => none
    | some v =>
      match floatsOf ts with
      | none => none
      | some vs => some (v :: vs)

/-- Source line 81 applied to a whole line: the row of floats of its tokens,
in positional (header) order. -/
def rowConv (l : Line) : Option (List ℚ) := floatsOf (pSplit (pTrim l))

/-- The error raised by `float(p)` on a malformed token, which
`parse_lammps_log` does not catch. -/
def convErrorMsg : String := "could not convert string to float"

/-- The inner `while` loop of `parse_lammps_log` (source lines 60-84):
consume data lines for a block with `k` header columns.  Returns the
consumed rows and the remaining lines, the first of which is the line the
loop `break`s on (the cursor is not advanced past it); an uncaught
`ValueError` from a row conversion is an `Except.error`. -/
def consumeBlock (k : Nat) : List Line → Except String (List (List ℚ) × List Line)
  | [] => .ok ([], [])
  | l :: rest =>
    if acceptsLine k l then
      match rowConv l with
      | none => .error convErrorMsg
      | some row =>
        match consumeBlock k rest with
        | .error e => .error e
        | .ok (data, rem) => .ok (row :: data, rem)
    else .ok ([], l :: rest)

/-- The outer `while` loop of `parse_lammps_log` (source lines 51-92),
indexed by fuel (one unit per outer iteration); `none` means the fuel ran
out before the scan reached the end of the input.  On a header line the
block is consumed (lines 55-88) and emitted iff it has at least one row
(line 86); any other line is skipped (line 90). -/
def parseLinesF : Nat → List Line → Option (Except String (List Run))
  | 0, ls =>
    match ls with
    | [] => some (.ok [])
    | _ :: _ => none
  | fuel + 1, ls =>
    match ls with
    | [] => some (.ok [])
    | l :: rest =>
      let line := pTrim l
      if isHeaderLine l then
        let headers := pSplit line
        match consumeBlock headers.length rest with
        | .error e => some (.error e)
        | .ok (data, rem) =>
          match parseLinesF fuel rem with
          | none => none
          | some (.error e) => some (.error e)
          | some (.ok runs) =>
            some (.ok (if data.isEmpty then runs else ⟨headers.map String.mk, data⟩ :: runs))
      else parseLinesF fuel rest

/-- `parse_lammps_log` on the list of lines of the file: the outer scan run
with fuel `lines.length`, which `parseLinesF_isSome` proves sufficient. -/
def parse_lammps_log (ls : List Line) : Except String (List Run) :=
  (parseLinesF ls.length ls).getD (.ok [])

/-- Row conversion lifted to a list of lines: the rows a fully numeric block
body converts to, `none` as soon as one line has a malformed token. -/
def rowsOf : List Line → Option (List (List ℚ))
  | [] => some []
  | l :: ls =>
    match rowConv l with
    | none => none
    | some r =>
      match rowsOf ls with
      | none => none
      | some rs => some (r :: rs)

/-- `stopsBlock k ls` holds when the inner loop, arriving at `ls`, stops the
current block there: either the input is exhausted or the first line fails
the acceptance test. -/
def stopsBlock (k : Nat) : List Line → Bool
  | [] => true
  | t :: _ => !(acceptsLine k t)

/-- Total number of data rows over a list of runs. -/
def totalRows (runs : List Run) : Nat := (runs.map (fun r => r.rows.length)).sum

/-- The command-line request consumed by `main` (source lines 96-137):
1-based run index, x-column, optional y-columns, the `--list` flag, optional
inclusive x-bounds, optional averaging columns. -/
structure Query where
  runIdx : Int
  x : String
  y : Option (List String)
  listFlag : Bool
  xMin : Option ℚ
  xMax : Option ℚ
  avgCols : Option (List String)
deriving DecidableEq

/-- The anticipated error conditions of `main`, each a printed message
followed by a clean `return`. -/
inductive QueryError where
  | noRuns
  | outOfRange (given : Int) (count : Nat)
  | unknownX (x : String) (available : List String)
  | emptyResult
  | nothingRequested
  | unknownY (missing available : List String)
deriving DecidableEq

/-- What a completed (non-erroring) invocation of `main` produces:
`avgMissing` is the non-fatal "avg-cols not found" message (source lines
204-208, which does not `return`), `averages` the printed per-column means,
and `series` the `(x, y)` line series handed to the plot (source lines
221-226). -/
structure QueryOutput where
  avgMissing : Option (List String)
  averages : List (String × ℚ)
  series : List (String × List (ℚ × ℚ))
deriving DecidableEq

/-- Result of one invocation of `main` after parsing: an early-returning
error, the `--list`-only early return (source line 155), or a completed
invocation. -/
inductive QueryResult where
  | err (e : QueryError)
  | listedOnly
  | ok (out : QueryOutput)
deriving DecidableEq

/-- Python truthiness of an optional list argument: `None` and `[]` are
falsy. -/
def optFalsy : Option (List String) → Bool
  | none => true
  | some l => l.isEmpty

/-- Position of a column name in the header (first occurrence), the index
pandas uses for `df[col]` with our duplicate-free headers. -/
def colIndex : List String → String → Nat
  | [], _ => 0
  | c0 :: rest, c => if c0 = c then 0 else colIndex rest c + 1

/-- The values of column `c` down a list of rows (`df_sel[col]`). -/
def colVals (cols : List String) (rows : List (List ℚ)) (c : String) : List ℚ :=
  rows.map (fun r => r.getD (colIndex cols c) 0)

/-- Source lines 175-179: restrict the rows to the x-range, applying the
lower-bound filter when `--x-min` was supplied and then the upper-bound
filter when `--x-max` was supplied, both inclusive. -/
def filterRange (cols : List String) (rows : List (List ℚ)) (x : String)
    (xMin xMax : Option ℚ) : List (List ℚ) :=
  let xi := colIndex cols x
  let r1 :=
    match xMin with
    | none => rows
    | some a => rows.filter (fun r => decide (a ≤ r.getD xi 0))
  match xMax with
  | none => r1
  | some b => r1.filter (fun r => decide (r.getD xi 0 ≤ b))

/-- Arithmetic mean of a list of values (`Series.mean`), used only on
non-empty lists. -/
def mean (xs : List ℚ) : ℚ := xs.sum / (xs.length : ℚ)

/-- Source line 166: `runs[run_idx - 1]` (only evaluated under the range
check of lines 159-164). -/
def selectRun (runs : List Run) (idx : Int) : Run :=
  runs.getD (idx.toNat - 1) ⟨[], []⟩

/-- The `FilteredView` of the data model: the selected run's rows restricted
to the x-range. -/
def filteredView (runs : List Run) (q : Query) : List (List ℚ) :=
  filterRange (selectRun runs q.runIdx).columns (selectRun runs q.runIdx).rows
    q.x q.xMin q.xMax

/-- The query logic of `main` (source lines 139-238) on already-parsed runs:
the guard chain (no runs; list-only; run index range; x-column existence;
empty filtered view; nothing requested; unknown y-columns) followed by the
averaging block (lines 203-218, whose unknown-column branch does **not**
return) and the plotting block (lines 221-238). -/
def runQuery (runs : List Run) (q : Query) : QueryResult :=
  if runs = [] then .err .noRuns
  else if q.listFlag = true ∧ q.y = none ∧ q.avgCols = none then .listedOnly
  else if q.runIdx < 1 ∨ (runs.length : Int) < q.runIdx then
    .err (.outOfRange q.runIdx runs.length)
  else
    let df := selectRun runs q.runIdx
    if q.x ∉ df.columns then .err (.unknownX q.x df.columns)
    else
      let dfSel := filteredView runs q
      if dfSel = [] then .err .emptyResult
      else if optFalsy q.y = true ∧ optFalsy q.avgCols = true then .err .nothingRequested
      else
        let ys := q.y.getD []
        let missingY := ys.filter (fun c => decide (c ∉ df.columns))
        if ys ≠ [] ∧ missingY ≠ [] then .err (.unknownY missingY df.columns)
        else
          let avgs := q.avgCols.getD []
          let missingAvg := avgs.filter (fun c => decide (c ∉ df.columns))
          let avgPart : Option (List String) × List (String × ℚ) :=
            if avgs ≠ [] then
              if missingAvg ≠ [] then (some missingAvg, [])
              else (none, avgs.map (fun c => (c, mean (colVals df.columns dfSel c))))
            else (none, [])
          let series : List (String × List (ℚ × ℚ)) :=
            if ys ≠ [] then
              ys.map (fun c =>
                (c, (colVals df.columns dfSel q.x).zip (colVals df.columns dfSel c)))
            else []
          .ok ⟨avgPart.1, avgPart.2, series⟩

end LammpsLog


namespace LammpsLog

theorem consumeBlock_ok_length (k : Nat) :
    ∀ (ls : List Line) (data : List (List ℚ)) (rem : List Line),
      consumeBlock k ls = .ok (data, rem) → data.length + rem.length ≤ ls.length := by
  intro ls
  induction ls with
  | nil =>
    intro data rem h
    simp only [consumeBlock, Except.ok.injEq, Prod.mk.injEq] at h
    obtain ⟨rfl, rfl⟩ := h
    simp
  | cons l rest ih =>
    intro data rem h
    simp only [consumeBlock] at h
    split at h
    · cases hr : rowConv l with
      | none => rw [hr] at h; cases h
      | some row =>
        rw [hr] at h
        cases hc : consumeBlock k rest with
        | error e => rw [hc] at h; cases h
        | ok p =>
          rw [hc] at h
          obtain ⟨d, r⟩ := p
          simp only [Except.ok.injEq, Prod.mk.injEq] at h
          obtain ⟨rfl, rfl⟩ := h
          have := ih d r hc
          simp only [List.length_cons]
          omega
    · simp only [Except.ok.injEq, Prod.mk.injEq] at h
      obtain ⟨rfl, rfl⟩ := h
      simp

theorem parseLinesF_nil : ∀ f : Nat, parseLinesF f [] = some (.ok []) := by
  intro f
  cases f <;> rfl

theorem parseLinesF_congr : ∀ (f g : Nat) (ls : List Line),
    ls.length ≤ f → ls.length ≤ g → parseLinesF f ls = parseLinesF g ls := by
  intro f
  induction f with
  | zero =>
    intro g ls hf _
    have h0 : ls = [] := List.length_eq_zero.mp (Nat.le_zero.mp hf)
    subst h0
    rw [parseLinesF_nil, parseLinesF_nil]
  | succ f ih =>
    intro g ls hf hg
    match ls, g with
    | [], g => rw [parseLinesF_nil, parseLinesF_nil]
    | l :: rest, 0 => simp at hg
    | l :: rest, g + 1 =>
      simp only [List.length_cons, Nat.add_le_add_iff_right] at hf hg
      simp only [parseLinesF]
      by_cases hh : isHeaderLine l
      · simp only [hh, if_true]
        cases hc : consumeBlock (pSplit (pTrim l)).length rest with
        | error e => rfl
        | ok p =>
          obtain ⟨data, rem⟩ := p
          have hrem : rem.length ≤ rest.length := by
            have := consumeBlock_ok_length _ rest data rem hc; omega
          dsimp only
          rw [ih g rem (le_trans hrem hf) (le_trans hrem hg)]
      · simp only [hh, Bool.false_eq_true, if_false]
        exact ih g rest hf hg

theorem parseLinesF_isSome : ∀ (f : Nat) (ls : List Line),
    ls.length ≤ f → (parseLinesF f ls).isSome := by
  intro f
  induction f with
  | zero =>
    intro ls hf
    have h0 : ls = [] := List.length_eq_zero.mp (Nat.le_zero.mp hf)
    subst h0
    rw [parseLinesF_nil]; rfl
  | succ f ih =>
    intro ls hf
    match ls with
    | [] => rw [parseLinesF_nil]; rfl
    | l :: rest =>
      simp only [List.length_cons, Nat.add_le_add_iff_right] at hf
      simp only [parseLinesF]
      by_cases hh : isHeaderLine l
      · simp only [hh, if_true]
        cases hc : consumeBlock (pSplit (pTrim l)).length rest with
        | error e => rfl
        | ok p =>
          obtain ⟨data, rem⟩ := p
          have hrem : rem.length ≤ rest.length := by
            have := consumeBlock_ok_length _ rest data rem hc; omega
          have := ih rem (le_trans hrem hf)
          dsimp only
          cases hp : parseLinesF f rem with
          | none => rw [hp] at this; simp at this
          | some r => cases r <;> rfl
      · simp only [hh, Bool.false_eq_true, if_false]
        exact ih rest hf

theorem parseLinesF_eq_parse (f : Nat) (ls : List Line) (h : ls.length ≤ f) :
    parseLinesF f ls = some (parse_lammps_log ls) := by
  rw [parseLinesF_congr f ls.length ls h le_rfl]
  unfold parse_lammps_log
  have hs := parseLinesF_isSome ls.length ls le_rfl
  cases hp : parseLinesF ls.length ls with
  | none => rw [hp] at hs; simp at hs
  | some r => simp

theorem parse_skip (l : Line) (rest : List Line) (h : isHeaderLine l = false) :
    parse_lammps_log (l :: rest) = parse_lammps_log rest := by
  unfold parse_lammps_log
  simp only [List.length_cons, parseLinesF, h, Bool.false_eq_true, if_false]

theorem parse_header_step (l : Line) (rest : List Line) (h : isHeaderLine l = true) :
    parse_lammps_log (l :: rest) =
      match consumeBlock (pSplit (pTrim l)).length rest with
      | .error e => .error e
      | .ok (data, rem) =>
        (parse_lammps_log rem).map
          (fun runs =>
            if data.isEmpty then runs
            else ⟨(pSplit (pTrim l)).map String.mk, data⟩ :: runs) := by
  conv_lhs => rw [parse_lammps_log]
  simp only [List.length_cons, parseLinesF, h, if_true]
  cases hc : consumeBlock (pSplit (pTrim l)).length rest with
  | error e => rfl
  | ok p =>
    obtain ⟨data, rem⟩ := p
    have hrem : rem.length ≤ rest.length := by
      have := consumeBlock_ok_length _ rest data rem hc; omega
    dsimp only
    rw [parseLinesF_eq_parse rest.length rem hrem]
    cases hp : parse_lammps_log rem with
    | error e => simp [Except.map]
    | ok runs => simp [Except.map]

end LammpsLog

namespace LammpsLog

theorem floatsOf_length : ∀ (ts : List (List Char)) (vs : List ℚ),
    floatsOf ts = some vs → vs.length = ts.length := by
  intro ts
  induction ts with
  | nil => intro vs h; simp only [floatsOf, Option.some.injEq] at h; subst h; rfl
  | cons t ts ih =>
    intro vs h
    simp only [floatsOf] at h
    cases hv : pyFloat? t with
    | none => rw [hv] at h; cases h
    | some v =>
      rw [hv] at h
      cases hf : floatsOf ts with
      | none => rw [hf] at h; cases h
      | some ws =>
        rw [hf] at h
        simp only [Option.some.injEq] at h
        subst h
        simp [ih ws hf]

theorem rowsOf_length : ∀ (ds : List Line) (rs : List (List ℚ)),
    rowsOf ds = some rs → rs.length = ds.length := by
  intro ds
  induction ds with
  | nil => intro rs h; simp only [rowsOf, Option.some.injEq] at h; subst h; rfl
  | cons d ds ih =>
    intro rs h
    simp only [rowsOf] at h
    cases hv : rowConv d with
    | none => rw [hv] at h; cases h
    | some r =>
      rw [hv] at h
      cases hf : rowsOf ds with
      | none => rw [hf] at h; cases h
      | some ws =>
        rw [hf] at h
        simp only [Option.some.injEq] at h
        subst h
        simp [ih ws hf]

theorem acceptsLine_tokens_length (k : Nat) (l : Line) (h : acceptsLine k l = true) :
    (pSplit (pTrim l)).length = k := by
  simp only [acceptsLine] at h
  split at h
  · cases h
  · split at h
    · cases h
    · exact eq_of_beq ((Bool.and_eq_true _ _).mp h).2

theorem rowConv_length (k : Nat) (l : Line) (row : List ℚ)
    (hacc : acceptsLine k l = true) (hr : rowConv l = some row) : row.length = k := by
  rw [floatsOf_length (pSplit (pTrim l)) row hr]
  exact acceptsLine_tokens_length k l hacc

theorem consumeBlock_rows_len (k : Nat) : ∀ (ls : List Line) (data : List (List ℚ)) (rem : List Line),
    consumeBlock k ls = .ok (data, rem) → ∀ row ∈ data, row.length = k := by
  intro ls
  induction ls with
  | nil =>
    intro data rem h
    simp only [consumeBlock, Except.ok.injEq, Prod.mk.injEq] at h
    obtain ⟨rfl, rfl⟩ := h
    simp
  | cons l rest ih =>
    intro data rem h
    simp only [consumeBlock] at h
    cases hacc : acceptsLine k l with
    | false =>
      rw [hacc] at h
      simp only [Bool.false_eq_true, if_false, Except.ok.injEq, Prod.mk.injEq] at h
      obtain ⟨rfl, rfl⟩ := h
      simp
    | true =>
      rw [hacc] at h
      simp only [if_true] at h
      cases hr : rowConv l with
      | none => rw [hr] at h; cases h
      | some row =>
        rw [hr] at h
        cases hc : consumeBlock k rest with
        | error e => rw [hc] at h; cases h
        | ok p =>
          rw [hc] at h
          obtain ⟨d, r⟩ := p
          simp only [Except.ok.injEq, Prod.mk.injEq] at h
          obtain ⟨rfl, rfl⟩ := h
          intro row0 hrow0
          rcases List.mem_cons.mp hrow0 with h0 | h0
          · subst h0; exact rowConv_length k l row0 hacc hr
          · exact ih d r hc row0 h0

theorem consumeBlock_eats (k : Nat) : ∀ (data : List Line) (rows : List (List ℚ)) (tail : List Line),
    (∀ l ∈ data, acceptsLine k l = true) → rowsOf data = some rows →
    stopsBlock k tail = true → consumeBlock k (data ++ tail) = .ok (rows, tail) := by
  intro data
  induction data with
  | nil =>
    intro rows tail _ hr hs
    simp only [rowsOf, Option.some.injEq] at hr
    subst hr
    cases tail with
    | nil => rfl
    | cons t ts =>
      simp only [stopsBlock, Bool.not_eq_true'] at hs
      simp only [List.nil_append, consumeBlock, hs, Bool.false_eq_true, if_false]
  | cons l ds ih =>
    intro rows tail hacc hr hs
    simp only [rowsOf] at hr
    cases hv : rowConv l with
    | none => rw [hv] at hr; cases hr
    | some r =>
      rw [hv] at hr
      cases hf : rowsOf ds with
      | none => rw [hf] at hr; cases hr
      | some rs =>
        rw [hf] at hr
        simp only [Option.some.injEq] at hr
        subst hr
        have haccl : acceptsLine k l = true := hacc l (List.mem_cons_self l ds)
        simp only [List.cons_append, consumeBlock, haccl, if_true, hv]
        rw [List.append_eq, ih rs tail (fun x hx => hacc x (List.mem_cons_of_mem l hx)) hf hs]

end LammpsLog

namespace LammpsLog

theorem parseLinesF_inv : ∀ (fuel : Nat) (ls : List Line) (runs : List Run),
    parseLinesF fuel ls = some (.ok runs) →
    totalRows runs ≤ ls.length ∧
    ∀ r ∈ runs, r.rows ≠ [] ∧ ∀ row ∈ r.rows, row.length = r.columns.length := by
  intro fuel
  induction fuel with
  | zero =>
    intro ls runs h
    cases ls with
    | nil =>
      simp only [parseLinesF, Option.some.injEq, Except.ok.injEq] at h
      subst h
      exact ⟨by simp [totalRows], by simp⟩
    | cons l rest =>
      simp only [parseLinesF] at h
      exact Option.noConfusion h
  | succ f ih =>
    intro ls runs h
    cases ls with
    | nil =>
      simp only [parseLinesF, Option.some.injEq, Except.ok.injEq] at h
      subst h
      exact ⟨by simp [totalRows], by simp⟩
    | cons l rest =>
      simp only [parseLinesF] at h
      by_cases hh : isHeaderLine l = true
      · simp only [hh, if_true] at h
        cases hc : consumeBlock (pSplit (pTrim l)).length rest with
        | error e => rw [hc] at h; simp at h
        | ok p =>
          obtain ⟨data, rem⟩ := p
          rw [hc] at h
          dsimp only at h
          cases hp : parseLinesF f rem with
          | none => rw [hp] at h; cases h
          | some r =>
            rw [hp] at h
            cases r with
            | error e => simp at h
            | ok runs2 =>
              dsimp only at h
              simp only [Option.some.injEq, Except.ok.injEq] at h
              subst h
              obtain ⟨hb, hinv⟩ := ih rem runs2 hp
              have hlen := consumeBlock_ok_length _ rest data rem hc
              by_cases hd : data.isEmpty = true
              · simp only [hd, if_true]
                refine ⟨?_, hinv⟩
                simp only [List.length_cons]
                omega
              · simp only [hd, Bool.false_eq_true, if_false]
                have hde : data ≠ [] := by
                  intro h0; subst h0; simp at hd
                constructor
                · simp only [totalRows, List.map_cons, List.sum_cons, List.length_cons]
                  simp only [totalRows] at hb
                  omega
                · intro r hr
                  rcases List.mem_cons.mp hr with h0 | h0
                  · subst h0
                    refine ⟨hde, ?_⟩
                    intro row hrow
                    rw [consumeBlock_rows_len _ rest data rem hc row hrow]
                    simp
                  · exact hinv r h0
      · simp only [hh, Bool.false_eq_true, if_false] at h
        have := ih rest runs h
        refine ⟨?_, this.2⟩
        simp only [List.length_cons]
        omega

theorem consumeBlock_error (k : Nat) : ∀ (pre : List Line) (l : Line) (rest : List Line),
    (∀ p ∈ pre, acceptsLine k p = true ∧ (rowConv p).isSome = true) →
    acceptsLine k l = true → rowConv l = none →
    consumeBlock k (pre ++ l :: rest) = .error convErrorMsg := by
  intro pre
  induction pre with
  | nil =>
    intro l rest _ hacc hr
    simp only [List.nil_append, consumeBlock, hacc, if_true, hr]
  | cons p ps ih =>
    intro l rest hpre hacc hr
    obtain ⟨hap, hcp⟩ := hpre p (List.mem_cons_self p ps)
    obtain ⟨row, hrow⟩ := Option.isSome_iff_exists.mp hcp
    simp only [List.cons_append, consumeBlock, hap, if_true, hrow]
    rw [List.append_eq, ih l rest (fun x hx => hpre x (List.mem_cons_of_mem p hx)) hacc hr]

theorem mean_singleton (x : ℚ) : mean [x] = x := by
  simp [mean]

theorem mean_const (l : List ℚ) (v : ℚ) (h : l ≠ []) (hc : ∀ x ∈ l, x = v) :
    mean l = v := by
  have hs : l.sum = l.length • v := List.sum_eq_card_nsmul l v hc
  have hn : (l.length : ℚ) ≠ 0 :=
    Nat.cast_ne_zero.mpr (fun h0 => h (List.length_eq_zero.mp h0))
  rw [mean, hs, nsmul_eq_mul, mul_div_cancel_left₀ _ hn]

end LammpsLog

namespace LammpsLog

/-- **C1**: for an input made of a header line with `k` column names followed
by `m ≥ 1` consecutive valid data lines (non-empty, numeric first token,
exactly `k` whitespace tokens, all tokens convertible) and then a blank
line, the segmenter emits for that block exactly one `Run`, placed before
the runs of the remaining input, whose columns are the header's `k` names in
order and whose rows are the lines' tokens converted positionally to floats
in file order. -/
theorem c1_block_yields_single_run (hdr : Line) (data post : List Line)
    (rows : List (List ℚ))
    (hh : isHeaderLine hdr = true)
    (hne : data ≠ [])
    (hacc : ∀ l ∈ data, acceptsLine (pSplit (pTrim hdr)).length l = true)
    (hconv : rowsOf data = some rows) :
    parse_lammps_log (hdr :: (data ++ [] :: post)) =
      (parse_lammps_log post).map
        (fun runs => ⟨(pSplit (pTrim hdr)).map String.mk, rows⟩ :: runs) := by
  have hstop : stopsBlock (pSplit (pTrim hdr)).length ([] :: post) = true := by
    simp [stopsBlock, acceptsLine, pTrim]
  rw [parse_header_step hdr (data ++ [] :: post) hh,
    consumeBlock_eats _ data rows ([] :: post) hacc hconv hstop]
  have hrows : rows.isEmpty = false := by
    cases rows with
    | nil =>
      have := rowsOf_length data [] hconv
      cases data with
      | nil => exact absurd rfl hne
      | cons d ds => simp at this
    | cons r rs => rfl
  dsimp only
  rw [parse_skip ([] : Line) post (by decide)]
  simp only [hrows, Bool.false_eq_true, if_false]

/-- **C4**: every `Run` the segmenter emits has at least one row and every
row has exactly `columns.length` values; and a header immediately followed
by a line failing the acceptance test (blank, non-numeric first token or
wrong token count) contributes no `Run` — parsing continues as if scanning
from that line. -/
theorem c4_run_invariants :
    (∀ (ls : List Line) (runs : List Run), parse_lammps_log ls = .ok runs →
      ∀ r ∈ runs, r.rows ≠ [] ∧ ∀ row ∈ r.rows, row.length = r.columns.length) ∧
    (∀ (hdr l : Line) (rest : List Line), isHeaderLine hdr = true →
      acceptsLine (pSplit (pTrim hdr)).length l = false →
      parse_lammps_log (hdr :: l :: rest) = parse_lammps_log (l :: rest)) := by
  constructor
  · intro ls runs h
    have hf : parseLinesF ls.length ls = some (.ok runs) := by
      rw [parseLinesF_eq_parse ls.length ls le_rfl, h]
    exact (parseLinesF_inv ls.length ls runs hf).2
  · intro hdr l rest hh hacc
    rw [parse_header_step hdr (l :: rest) hh]
    have hc : consumeBlock (pSplit (pTrim hdr)).length (l :: rest) = .ok ([], l :: rest) := by
      simp only [consumeBlock, hacc, Bool.false_eq_true, if_false]
    rw [hc]
    dsimp only
    simp only [List.isEmpty_nil, if_true]
    cases hp : parse_lammps_log (l :: rest) <;> simp [Except.map]

/-- **C8**: if a line is accepted into a block (non-empty, numeric first
token, token count equal to the header's) but a later token fails float
conversion, the whole parse fails with the propagated conversion error — it
is not caught and does not merely terminate the block. -/
theorem c8_conversion_error_fatal (hdr : Line) (pre : List Line) (l : Line)
    (rest : List Line)
    (hh : isHeaderLine hdr = true)
    (hpre : ∀ p ∈ pre,
      acceptsLine (pSplit (pTrim hdr)).length p = true ∧ (rowConv p).isSome = true)
    (hacc : acceptsLine (pSplit (pTrim hdr)).length l = true)
    (hfail : rowConv l = none) :
    parse_lammps_log (hdr :: (pre ++ l :: rest)) = .error convErrorMsg := by
  rw [parse_header_step hdr (pre ++ l :: rest) hh,
    consumeBlock_error _ pre l rest hpre hacc hfail]

/-- **C9 (counterexample)**: the line `Steps T` is recognized as a header —
it even yields a `Run` with columns `Steps`, `T` — although its first
whitespace token is `Steps`, not `Step`: header recognition is a string
prefix test, not a first-token test, so the claimed "if and only if the
first token is `Step`" is false. -/
theorem c9_counterexample :
    isHeaderLine ("Steps T".toList) = true ∧
    (pSplit (pTrim ("Steps T".toList))).head? ≠ some stepChars ∧
    parse_lammps_log ["Steps T".toList, "1 2".toList] =
      .ok [⟨["Steps", "T"], [[1, 2]]⟩] := by decide

/-- **C9 (amended)**: a stripped line is recognized as a header line iff the
character string `Step` is a prefix of it (not necessarily a whole first
token); a non-header line at the scan position is skipped with no effect;
and a file with zero such `Step`-prefixed lines segments to the empty run
sequence. -/
theorem c9_amended_header_is_prefix_test :
    (∀ l : Line, isHeaderLine l = stepChars.isPrefixOf (pTrim l)) ∧
    (∀ (l : Line) (rest : List Line), isHeaderLine l = false →
      parse_lammps_log (l :: rest) = parse_lammps_log rest) ∧
    (∀ ls : List Line, (∀ l ∈ ls, isHeaderLine l = false) →
      parse_lammps_log ls = .ok []) := by
  refine ⟨fun l => rfl, parse_skip, fun ls => ?_⟩
  induction ls with
  | nil => intro _; rfl
  | cons l rest ih =>
    intro h
    rw [parse_skip l rest (h l (List.mem_cons_self l rest))]
    exact ih (fun x hx => h x (List.mem_cons_of_mem l hx))

/-- **C10**: the scan terminates — fuel `lines.length` (one unit per outer
iteration) is always enough, so `parseLinesF` returns the final result for
every fuel at least the line count — and every input line contributes rows
to at most one run: the total number of rows over all emitted runs is
bounded by the number of input lines. -/
theorem c10_termination_and_row_bound :
    (∀ (ls : List Line) (fuel : Nat), ls.length ≤ fuel →
      parseLinesF fuel ls = some (parse_lammps_log ls)) ∧
    (∀ (ls : List Line) (runs : List Run), parse_lammps_log ls = .ok runs →
      totalRows runs ≤ ls.length) := by
  constructor
  · intro ls fuel h
    exact parseLinesF_eq_parse fuel ls h
  · intro ls runs h
    have hf : parseLinesF ls.length ls = some (.ok runs) := by
      rw [parseLinesF_eq_parse ls.length ls le_rfl, h]
    exact (parseLinesF_inv ls.length ls runs hf).1

end LammpsLog

section
attribute [local semireducible] Rat.add Rat.mul Rat.inv Rat.sub Rat.ofScientific

/-- Witness for C1: the theorem applied to the concrete block
`Step T` / `1 2` / blank. -/
theorem c1_witness :
    LammpsLog.parse_lammps_log
        ("Step T".toList :: (["1 2".toList] ++ [] :: [])) =
      (LammpsLog.parse_lammps_log []).map
        (fun runs =>
          ⟨(LammpsLog.pSplit (LammpsLog.pTrim ("Step T".toList))).map String.mk,
            [[1, 2]]⟩ :: runs) :=
  LammpsLog.c1_block_yields_single_run ("Step T".toList) ["1 2".toList] [] [[1, 2]]
    (by decide) (by decide) (by decide) (by decide)

/-- Witness for C4: both conjuncts applied to concrete inputs. -/
theorem c4_witness :
    (∀ r ∈ ([⟨["Step"], [[1]]⟩] : List LammpsLog.Run),
      r.rows ≠ [] ∧ ∀ row ∈ r.rows, row.length = r.columns.length) ∧
    LammpsLog.parse_lammps_log ["Step".toList, "x 1".toList, "1 2".toList] =
      LammpsLog.parse_lammps_log ["x 1".toList, "1 2".toList] :=
  ⟨LammpsLog.c4_run_invariants.1 ["Step".toList, "1".toList] [⟨["Step"], [[1]]⟩]
      (by decide),
   LammpsLog.c4_run_invariants.2 ("Step".toList) ("x 1".toList) ["1 2".toList]
      (by decide) (by decide)⟩

/-- Witness for C8: a block whose second data line has a malformed second
token makes the whole parse fail with the conversion error. -/
theorem c8_witness :
    LammpsLog.parse_lammps_log
        ("Step A B".toList :: (["1 2 3".toList] ++ "4 oops 6".toList :: [])) =
      .error LammpsLog.convErrorMsg :=
  LammpsLog.c8_conversion_error_fatal ("Step A B".toList) ["1 2 3".toList]
    ("4 oops 6".toList) [] (by decide) (by decide) (by decide) (by decide)

/-- Witness for C9 (amended): the conjuncts applied to concrete lines. -/
theorem c9_witness :
    LammpsLog.isHeaderLine ("x 1".toList) =
      LammpsLog.stepChars.isPrefixOf (LammpsLog.pTrim ("x 1".toList)) ∧
    LammpsLog.parse_lammps_log ["x 1".toList, "Step".toList, "1".toList] =
      LammpsLog.parse_lammps_log ["Step".toList, "1".toList] ∧
    LammpsLog.parse_lammps_log ["a".toList, "b c".toList] = .ok [] :=
  ⟨LammpsLog.c9_amended_header_is_prefix_test.1 ("x 1".toList),
   LammpsLog.c9_amended_header_is_prefix_test.2.1 ("x 1".toList)
      ["Step".toList, "1".toList] (by decide),
   LammpsLog.c9_amended_header_is_prefix_test.2.2 ["a".toList, "b c".toList]
      (by decide)⟩

/-- Witness for C10: sufficiency of any fuel above the line count and the
row bound, at a concrete two-line input. -/
theorem c10_witness :
    LammpsLog.parseLinesF 5 ["Step".toList, "1".toList] =
      some (LammpsLog.parse_lammps_log ["Step".toList, "1".toList]) ∧
    LammpsLog.totalRows [⟨["Step"], [[1]]⟩] ≤
      (["Step".toList, "1".toList] : List LammpsLog.Line).length :=
  ⟨LammpsLog.c10_termination_and_row_bound.1 ["Step".toList, "1".toList] 5 (by decide),
   LammpsLog.c10_termination_and_row_bound.2 ["Step".toList, "1".toList]
      [⟨["Step"], [[1]]⟩] (by decide)⟩

end

namespace LammpsLog

/-- **C3**: range filtering retains exactly the rows whose x-value `v`
satisfies `A ≤ v` (when `x_min = A` is supplied) and `v ≤ B` (when
`x_max = B` is supplied), both inclusive, in original row order; an absent
bound leaves that side unconstrained. -/
theorem c3_filter_semantics (cols : List String) (rows : List (List ℚ))
    (x : String) (xMin xMax : Option ℚ) :
    filterRange cols rows x xMin xMax =
      rows.filter (fun r =>
        (xMin.all fun a => decide (a ≤ r.getD (colIndex cols x) 0)) &&
        (xMax.all fun b => decide (r.getD (colIndex cols x) 0 ≤ b))) := by
  cases xMin with
  | none =>
    cases xMax with
    | none => simp [filterRange, Option.all]
    | some b => simp [filterRange, Option.all]
  | some a =>
    cases xMax with
    | none => simp [filterRange, Option.all]
    | some b => simp [filterRange, Option.all, List.filter_filter, Bool.and_comm]

theorem runQuery_noRuns (runs : List Run) (q : Query) (h1 : runs = []) :
    runQuery runs q = .err .noRuns := by
  simp only [runQuery, if_pos h1]

theorem runQuery_listedOnly (runs : List Run) (q : Query) (h1 : runs ≠ [])
    (h2 : q.listFlag = true ∧ q.y = none ∧ q.avgCols = none) :
    runQuery runs q = .listedOnly := by
  simp only [runQuery, if_neg h1, if_pos h2]

theorem runQuery_outOfRange (runs : List Run) (q : Query) (h1 : runs ≠ [])
    (h2 : ¬(q.listFlag = true ∧ q.y = none ∧ q.avgCols = none))
    (h3 : q.runIdx < 1 ∨ (runs.length : Int) < q.runIdx) :
    runQuery runs q = .err (.outOfRange q.runIdx runs.length) := by
  simp only [runQuery, if_neg h1, if_neg h2, if_pos h3]

theorem runQuery_unknownX (runs : List Run) (q : Query) (h1 : runs ≠ [])
    (h2 : ¬(q.listFlag = true ∧ q.y = none ∧ q.avgCols = none))
    (h3 : ¬(q.runIdx < 1 ∨ (runs.length : Int) < q.runIdx))
    (h4 : q.x ∉ (selectRun runs q.runIdx).columns) :
    runQuery runs q = .err (.unknownX q.x (selectRun runs q.runIdx).columns) := by
  simp only [runQuery, if_neg h1, if_neg h2, if_neg h3, if_pos h4]

theorem runQuery_emptyResult (runs : List Run) (q : Query) (h1 : runs ≠ [])
    (h2 : ¬(q.listFlag = true ∧ q.y = none ∧ q.avgCols = none))
    (h3 : ¬(q.runIdx < 1 ∨ (runs.length : Int) < q.runIdx))
    (h4 : q.x ∈ (selectRun runs q.runIdx).columns)
    (h5 : filteredView runs q = []) :
    runQuery runs q = .err .emptyResult := by
  simp only [runQuery, if_neg h1, if_neg h2, if_neg h3, if_neg (not_not_intro h4),
    if_pos h5]

theorem runQuery_nothingRequested (runs : List Run) (q : Query) (h1 : runs ≠ [])
    (h2 : ¬(q.listFlag = true ∧ q.y = none ∧ q.avgCols = none))
    (h3 : ¬(q.runIdx < 1 ∨ (runs.length : Int) < q.runIdx))
    (h4 : q.x ∈ (selectRun runs q.runIdx).columns)
    (h5 : filteredView runs q ≠ [])
    (h6 : optFalsy q.y = true ∧ optFalsy q.avgCols = true) :
    runQuery runs q = .err .nothingRequested := by
  simp only [runQuery, if_neg h1, if_neg h2, if_neg h3, if_neg (not_not_intro h4),
    if_neg h5, if_pos h6]

theorem runQuery_unknownY (runs : List Run) (q : Query) (h1 : runs ≠ [])
    (h2 : ¬(q.listFlag = true ∧ q.y = none ∧ q.avgCols = none))
    (h3 : ¬(q.runIdx < 1 ∨ (runs.length : Int) < q.runIdx))
    (h4 : q.x ∈ (selectRun runs q.runIdx).columns)
    (h5 : filteredView runs q ≠ [])
    (h6 : ¬(optFalsy q.y = true ∧ optFalsy q.avgCols = true))
    (h7 : q.y.getD [] ≠ [] ∧
      (q.y.getD []).filter
        (fun c => decide (c ∉ (selectRun runs q.runIdx).columns)) ≠ []) :
    runQuery runs q = .err (.unknownY
      ((q.y.getD []).filter
        (fun c => decide (c ∉ (selectRun runs q.runIdx).columns)))
      (selectRun runs q.runIdx).columns) := by
  simp only [runQuery, if_neg h1, if_neg h2, if_neg h3, if_neg (not_not_intro h4),
    if_neg h5, if_neg h6, if_pos h7]

theorem runQuery_ok_form (runs : List Run) (q : Query) (h1 : runs ≠ [])
    (h2 : ¬(q.listFlag = true ∧ q.y = none ∧ q.avgCols = none))
    (h3 : ¬(q.runIdx < 1 ∨ (runs.length : Int) < q.runIdx))
    (h4 : q.x ∈ (selectRun runs q.runIdx).columns)
    (h5 : filteredView runs q ≠ [])
    (h6 : ¬(optFalsy q.y = true ∧ optFalsy q.avgCols = true))
    (h7 : ¬(q.y.getD [] ≠ [] ∧
      (q.y.getD []).filter
        (fun c => decide (c ∉ (selectRun runs q.runIdx).columns)) ≠ [])) :
    runQuery runs q = .ok
      ⟨(if q.avgCols.getD [] ≠ [] then
          if (q.avgCols.getD []).filter
              (fun c => decide (c ∉ (selectRun runs q.runIdx).columns)) ≠ [] then
            (some ((q.avgCols.getD []).filter
              (fun c => decide (c ∉ (selectRun runs q.runIdx).columns))), [])
          else
            (none, (q.avgCols.getD []).map (fun c =>
              (c, mean (colVals (selectRun runs q.runIdx).columns
                (filteredView runs q) c))))
        else (none, [])).1,
       (if q.avgCols.getD [] ≠ [] then
          if (q.avgCols.getD []).filter
              (fun c => decide (c ∉ (selectRun runs q.runIdx).columns)) ≠ [] then
            (some ((q.avgCols.getD []).filter
              (fun c => decide (c ∉ (selectRun runs q.runIdx).columns))), [])
          else
            (none, (q.avgCols.getD []).map (fun c =>
              (c, mean (colVals (selectRun runs q.runIdx).columns
                (filteredView runs q) c))))
        else (none, [])).2,
       if q.y.getD [] ≠ [] then
         (q.y.getD []).map (fun c =>
           (c, (colVals (selectRun runs q.runIdx).columns (filteredView runs q)
                  q.x).zip
               (colVals (selectRun runs q.runIdx).columns (filteredView runs q)
                  c)))
       else []⟩ := by
  simp only [runQuery, if_neg h1, if_neg h2, if_neg h3, if_neg (not_not_intro h4),
    if_neg h5, if_neg h6, if_neg h7]

end LammpsLog

namespace LammpsLog

theorem optFalsy_getD (o : Option (List String)) :
    optFalsy o = true ↔ o.getD [] = [] := by
  cases o with
  | none => simp [optFalsy]
  | some l => cases l <;> simp [optFalsy]

/-- **C5**: every reported average is the unweighted arithmetic mean of the
named column over the filtered view; the mean of a single value is that
value; the mean over a constant column of value `v` is `v` whatever range is
chosen. -/
theorem c5_average_is_mean :
    (∀ (runs : List Run) (q : Query) (out : QueryOutput),
      runQuery runs q = .ok out →
      ∀ p ∈ out.averages,
        p.2 = mean (colVals (selectRun runs q.runIdx).columns
          (filteredView runs q) p.1)) ∧
    (∀ x : ℚ, mean [x] = x) ∧
    (∀ (l : List ℚ) (v : ℚ), l ≠ [] → (∀ x ∈ l, x = v) → mean l = v) := by
  refine ⟨?_, mean_singleton, mean_const⟩
  intro runs q out h p hp
  by_cases h1 : runs = []
  · rw [runQuery_noRuns runs q h1] at h; exact absurd h (by simp)
  by_cases h2 : q.listFlag = true ∧ q.y = none ∧ q.avgCols = none
  · rw [runQuery_listedOnly runs q h1 h2] at h; exact absurd h (by simp)
  by_cases h3 : q.runIdx < 1 ∨ (runs.length : Int) < q.runIdx
  · rw [runQuery_outOfRange runs q h1 h2 h3] at h; exact absurd h (by simp)
  by_cases h4 : q.x ∉ (selectRun runs q.runIdx).columns
  · rw [runQuery_unknownX runs q h1 h2 h3 h4] at h; exact absurd h (by simp)
  rw [Decidable.not_not] at h4
  by_cases h5 : filteredView runs q = []
  · rw [runQuery_emptyResult runs q h1 h2 h3 h4 h5] at h; exact absurd h (by simp)
  by_cases h6 : optFalsy q.y = true ∧ optFalsy q.avgCols = true
  · rw [runQuery_nothingRequested runs q h1 h2 h3 h4 h5 h6] at h
    exact absurd h (by simp)
  by_cases h7 : q.y.getD [] ≠ [] ∧
      (q.y.getD []).filter
        (fun c => decide (c ∉ (selectRun runs q.runIdx).columns)) ≠ []
  · rw [runQuery_unknownY runs q h1 h2 h3 h4 h5 h6 h7] at h; exact absurd h (by simp)
  rw [runQuery_ok_form runs q h1 h2 h3 h4 h5 h6 h7] at h
  injection h with h
  subst h
  dsimp only at hp
  split at hp
  · split at hp
    · simp at hp
    · simp only [List.mem_map] at hp
      obtain ⟨c, hc, hpc⟩ := hp
      subst hpc
      rfl
  · simp at hp

/-- **C6 (counterexample)**: with neither `--y` nor `--avg-cols` supplied,
an x-range that empties the run still produces the EmptyResult error,
because the empty-view check precedes the nothing-requested check; so
"EmptyResult exactly when zero rows AND averaging or plotting was
requested" is false. -/
theorem c6_counterexample :
    runQuery [⟨["Step"], [[0]]⟩] ⟨1, "Step", none, false, some 5, none, none⟩ =
      .err .emptyResult ∧
    (⟨1, "Step", none, false, some 5, none, none⟩ : Query).y = none ∧
    (⟨1, "Step", none, false, some 5, none, none⟩ : Query).avgCols = none := by
  refine ⟨?_, rfl, rfl⟩
  exact runQuery_emptyResult _ _ (by decide) (by decide) (by decide) (by decide)
    (by decide)

/-- **C6 (amended)**: the engine fails with EmptyResult exactly when the
earlier guards pass and the x-range filter leaves zero rows — regardless of
whether averaging or plotting was requested, since that check comes first —
and it signals NothingRequested exactly when the guards pass, the filtered
view is non-empty, and both `y_columns` and `avg_columns` are absent or
empty. -/
theorem c6_amended_guard_order (runs : List Run) (q : Query) :
    (runQuery runs q = .err .emptyResult ↔
      (runs ≠ [] ∧ ¬(q.listFlag = true ∧ q.y = none ∧ q.avgCols = none) ∧
        1 ≤ q.runIdx ∧ q.runIdx ≤ (runs.length : Int) ∧
        q.x ∈ (selectRun runs q.runIdx).columns ∧ filteredView runs q = [])) ∧
    (runQuery runs q = .err .nothingRequested ↔
      (runs ≠ [] ∧ ¬(q.listFlag = true ∧ q.y = none ∧ q.avgCols = none) ∧
        1 ≤ q.runIdx ∧ q.runIdx ≤ (runs.length : Int) ∧
        q.x ∈ (selectRun runs q.runIdx).columns ∧ filteredView runs q ≠ [] ∧
        optFalsy q.y = true ∧ optFalsy q.avgCols = true)) := by
  by_cases h1 : runs = []
  · rw [runQuery_noRuns runs q h1]
    refine ⟨⟨fun h => absurd h (by simp), ?_⟩, ⟨fun h => absurd h (by simp), ?_⟩⟩
    · rintro ⟨hne, -⟩; exact absurd h1 hne
    · rintro ⟨hne, -⟩; exact absurd h1 hne
  by_cases h2 : q.listFlag = true ∧ q.y = none ∧ q.avgCols = none
  · rw [runQuery_listedOnly runs q h1 h2]
    refine ⟨⟨fun h => absurd h (by simp), ?_⟩, ⟨fun h => absurd h (by simp), ?_⟩⟩
    · rintro ⟨-, hn, -⟩; exact (hn h2).elim
    · rintro ⟨-, hn, -⟩; exact (hn h2).elim
  by_cases h3 : q.runIdx < 1 ∨ (runs.length : Int) < q.runIdx
  · rw [runQuery_outOfRange runs q h1 h2 h3]
    refine ⟨⟨fun h => absurd h (by simp), ?_⟩, ⟨fun h => absurd h (by simp), ?_⟩⟩
    · rintro ⟨-, -, ha, hb, -⟩; rcases h3 with h3 | h3 <;> omega
    · rintro ⟨-, -, ha, hb, -⟩; rcases h3 with h3 | h3 <;> omega
  by_cases h4 : q.x ∉ (selectRun runs q.runIdx).columns
  · rw [runQuery_unknownX runs q h1 h2 h3 h4]
    refine ⟨⟨fun h => absurd h (by simp), ?_⟩, ⟨fun h => absurd h (by simp), ?_⟩⟩
    · rintro ⟨-, -, -, -, hx, -⟩; exact absurd hx h4
    · rintro ⟨-, -, -, -, hx, -⟩; exact absurd hx h4
  rw [Decidable.not_not] at h4
  have h3' := not_or.mp h3
  by_cases h5 : filteredView runs q = []
  · rw [runQuery_emptyResult runs q h1 h2 h3 h4 h5]
    refine ⟨⟨fun _ => ⟨h1, h2, by omega, by omega, h4, h5⟩, fun _ => rfl⟩,
      ⟨fun h => absurd h (by simp), ?_⟩⟩
    rintro ⟨-, -, -, -, -, hfv, -⟩; exact (hfv h5).elim
  by_cases h6 : optFalsy q.y = true ∧ optFalsy q.avgCols = true
  · rw [runQuery_nothingRequested runs q h1 h2 h3 h4 h5 h6]
    refine ⟨⟨fun h => absurd h (by simp), ?_⟩,
      ⟨fun _ => ⟨h1, h2, by omega, by omega, h4, h5, h6.1, h6.2⟩, fun _ => rfl⟩⟩
    rintro ⟨-, -, -, -, -, hfv⟩; exact (h5 hfv).elim
  by_cases h7 : q.y.getD [] ≠ [] ∧
      (q.y.getD []).filter
        (fun c => decide (c ∉ (selectRun runs q.runIdx).columns)) ≠ []
  · rw [runQuery_unknownY runs q h1 h2 h3 h4 h5 h6 h7]
    refine ⟨⟨fun h => absurd h (by simp), ?_⟩, ⟨fun h => absurd h (by simp), ?_⟩⟩
    · rintro ⟨-, -, -, -, -, hfv⟩; exact (h5 hfv).elim
    · rintro ⟨-, -, -, -, -, -, hoy, hoa⟩; exact (h6 ⟨hoy, hoa⟩).elim
  · rw [runQuery_ok_form runs q h1 h2 h3 h4 h5 h6 h7]
    refine ⟨⟨fun h => absurd h (by simp), ?_⟩, ⟨fun h => absurd h (by simp), ?_⟩⟩
    · rintro ⟨-, -, -, -, -, hfv⟩; exact (h5 hfv).elim
    · rintro ⟨-, -, -, -, -, -, hoy, hoa⟩; exact (h6 ⟨hoy, hoa⟩).elim

end LammpsLog

namespace LammpsLog

/-- **C7 (counterexample)**: with a valid x-column and valid y-columns but an
unknown `--avg-cols` column, the invocation is not atomic: the unknown-avg
message is recorded, no averages are computed, and yet the plot of the
y-columns is still produced — the claimed "returns cleanly without computing
any output" is false. -/
theorem c7_counterexample :
    runQuery [⟨["Step", "Temp"], [[0, 300]]⟩]
      ⟨1, "Step", some ["Temp"], false, none, none, some ["Bogus"]⟩ =
      .ok ⟨some ["Bogus"], [], [("Temp", [(0, 300)])]⟩ := by
  have h := runQuery_ok_form [⟨["Step", "Temp"], [[0, 300]]⟩]
    ⟨1, "Step", some ["Temp"], false, none, none, some ["Bogus"]⟩
    (by decide) (by decide) (by decide) (by decide) (by decide) (by decide)
    (by decide)
  rw [h]
  rfl

/-- **C7 (amended)**: a missing x-column or missing y-columns make the query
return cleanly with an error naming the missing column(s) and listing the
available columns, producing no averages and no plot; but a missing
avg-column is non-fatal: the error is recorded and averaging skipped
entirely, while plotting of the requested y-columns still proceeds. -/
theorem c7_amended_column_validation (runs : List Run) (q : Query) :
    ((runs ≠ [] ∧ ¬(q.listFlag = true ∧ q.y = none ∧ q.avgCols = none) ∧
      ¬(q.runIdx < 1 ∨ (runs.length : Int) < q.runIdx) ∧
      q.x ∉ (selectRun runs q.runIdx).columns) →
      runQuery runs q = .err (.unknownX q.x (selectRun runs q.runIdx).columns)) ∧
    ((runs ≠ [] ∧ ¬(q.listFlag = true ∧ q.y = none ∧ q.avgCols = none) ∧
      ¬(q.runIdx < 1 ∨ (runs.length : Int) < q.runIdx) ∧
      q.x ∈ (selectRun runs q.runIdx).columns ∧ filteredView runs q ≠ [] ∧
      q.y.getD [] ≠ [] ∧
      (q.y.getD []).filter
        (fun c => decide (c ∉ (selectRun runs q.runIdx).columns)) ≠ []) →
      runQuery runs q = .err (.unknownY
        ((q.y.getD []).filter
          (fun c => decide (c ∉ (selectRun runs q.runIdx).columns)))
        (selectRun runs q.runIdx).columns)) ∧
    ((runs ≠ [] ∧ ¬(q.listFlag = true ∧ q.y = none ∧ q.avgCols = none) ∧
      ¬(q.runIdx < 1 ∨ (runs.length : Int) < q.runIdx) ∧
      q.x ∈ (selectRun runs q.runIdx).columns ∧ filteredView runs q ≠ [] ∧
      ¬(optFalsy q.y = true ∧ optFalsy q.avgCols = true) ∧
      (q.y.getD []).filter
        (fun c => decide (c ∉ (selectRun runs q.runIdx).columns)) = [] ∧
      (q.avgCols.getD []).filter
        (fun c => decide (c ∉ (selectRun runs q.runIdx).columns)) ≠ []) →
      runQuery runs q = .ok
        ⟨some ((q.avgCols.getD []).filter
            (fun c => decide (c ∉ (selectRun runs q.runIdx).columns))),
         [],
         if q.y.getD [] ≠ [] then
           (q.y.getD []).map (fun c =>
             (c, (colVals (selectRun runs q.runIdx).columns (filteredView runs q)
                    q.x).zip
                 (colVals (selectRun runs q.runIdx).columns (filteredView runs q)
                    c)))
         else []⟩) := by
  refine ⟨?_, ?_, ?_⟩
  · rintro ⟨h1, h2, h3, h4⟩
    exact runQuery_unknownX runs q h1 h2 h3 h4
  · rintro ⟨h1, h2, h3, h4, h5, hy, hm⟩
    have h6 : ¬(optFalsy q.y = true ∧ optFalsy q.avgCols = true) := by
      rintro ⟨hoy, -⟩
      exact hy ((optFalsy_getD q.y).mp hoy)
    exact runQuery_unknownY runs q h1 h2 h3 h4 h5 h6 ⟨hy, hm⟩
  · rintro ⟨h1, h2, h3, h4, h5, h6, hyok, hmiss⟩
    have h7 : ¬(q.y.getD [] ≠ [] ∧
        (q.y.getD []).filter
          (fun c => decide (c ∉ (selectRun runs q.runIdx).columns)) ≠ []) := by
      rintro ⟨-, hm⟩
      exact hm hyok
    rw [runQuery_ok_form runs q h1 h2 h3 h4 h5 h6 h7]
    have havgs : q.avgCols.getD [] ≠ [] := by
      intro h0
      rw [h0] at hmiss
      simp at hmiss
    rw [if_pos havgs, if_pos hmiss]

section
attribute [local semireducible] Rat.add Rat.mul Rat.inv Rat.sub Rat.ofScientific

/-- **C2**: on the spec's end-to-end example (two `Step Temp Press` blocks
separated by a blank line, with 3 and 2 data lines), segmentation yields
exactly two runs with 3 and 2 rows, and averaging `Temp` over run 1 with
`x_min = 0`, `x_max = 100` over x-column `Step` reports
`(300.0 + 301.5) / 2 = 300.75`. -/
theorem c2_end_to_end_example :
    parse_lammps_log
        (["Step Temp Press", "0 300.0 1.0", "100 301.5 1.1", "200 299.8 0.9",
          "", "Step Temp Press", "0 310.0 2.0", "100 311.0 2.1"].map
          String.toList) =
      .ok [⟨["Step", "Temp", "Press"],
            [[0, 300, 1], [100, 301.5, 1.1], [200, 299.8, 0.9]]⟩,
           ⟨["Step", "Temp", "Press"], [[0, 310, 2], [100, 311, 2.1]]⟩] ∧
    ([[0, 300, 1], [100, 301.5, 1.1], [200, 299.8, 0.9]] :
        List (List ℚ)).length = 3 ∧
    ([[0, 310, 2], [100, 311, 2.1]] : List (List ℚ)).length = 2 ∧
    runQuery
        [⟨["Step", "Temp", "Press"],
          [[0, 300, 1], [100, 301.5, 1.1], [200, 299.8, 0.9]]⟩,
         ⟨["Step", "Temp", "Press"], [[0, 310, 2], [100, 311, 2.1]]⟩]
        ⟨1, "Step", none, false, some 0, some 100, some ["Temp"]⟩ =
      .ok ⟨none, [("Temp", 300.75)], []⟩ := by
  exact ⟨by decide, rfl, rfl, by decide⟩

end

end LammpsLog

section
attribute [local semireducible] Rat.add Rat.mul Rat.inv Rat.sub Rat.ofScientific

/-- Witness for C5: the three conjuncts applied at concrete inputs; the
reported `Temp` average over the filtered two-row view is `300.75`. -/
theorem c5_witness :
    LammpsLog.mean (LammpsLog.colVals
      (LammpsLog.selectRun [⟨["Step", "Temp"], [[0, 300], [100, 301.5]]⟩] 1).columns
      (LammpsLog.filteredView [⟨["Step", "Temp"], [[0, 300], [100, 301.5]]⟩]
        ⟨1, "Step", none, false, some 0, some 100, some ["Temp"]⟩)
      "Temp") = 300.75 ∧
    LammpsLog.mean [(5 : ℚ)] = 5 ∧
    LammpsLog.mean [(4 : ℚ), 4, 4] = 4 :=
  ⟨(LammpsLog.c5_average_is_mean.1 [⟨["Step", "Temp"], [[0, 300], [100, 301.5]]⟩]
      ⟨1, "Step", none, false, some 0, some 100, some ["Temp"]⟩
      ⟨none, [("Temp", 300.75)], []⟩ (by decide) ("Temp", (300.75 : ℚ))
      (by decide)).symm,
   LammpsLog.c5_average_is_mean.2.1 5,
   LammpsLog.c5_average_is_mean.2.2 [4, 4, 4] 4 (by decide) (by decide)⟩

/-- Witness for C6 (amended): the EmptyResult characterization instantiated
at a concrete run and query whose x-range excludes every row. -/
theorem c6_witness :
    LammpsLog.runQuery [⟨["Step"], [[0]]⟩]
      ⟨1, "Step", some ["Step"], false, some 5, none, none⟩ =
      .err .emptyResult :=
  ((LammpsLog.c6_amended_guard_order [⟨["Step"], [[0]]⟩]
      ⟨1, "Step", some ["Step"], false, some 5, none, none⟩).1).mpr (by decide)

/-- Witness for C7 (amended): the three conjuncts applied at concrete
inputs — unknown x and unknown y return errors, while an unknown avg-column
still yields a completed invocation. -/
theorem c7_witness :
    LammpsLog.runQuery [⟨["Temp"], [[1]]⟩]
      ⟨1, "Step", some ["Temp"], false, none, none, none⟩ =
      .err (.unknownX "Step" ["Temp"]) ∧
    LammpsLog.runQuery [⟨["Step"], [[1]]⟩]
      ⟨1, "Step", some ["Bogus"], false, none, none, none⟩ =
      .err (.unknownY ["Bogus"] ["Step"]) ∧
    LammpsLog.runQuery [⟨["Step"], [[1]]⟩]
      ⟨1, "Step", none, false, none, none, some ["Bogus"]⟩ =
      .ok ⟨some ["Bogus"], [], []⟩ :=
  ⟨(LammpsLog.c7_amended_column_validation [⟨["Temp"], [[1]]⟩]
      ⟨1, "Step", some ["Temp"], false, none, none, none⟩).1 (by decide),
   (LammpsLog.c7_amended_column_validation [⟨["Step"], [[1]]⟩]
      ⟨1, "Step", some ["Bogus"], false, none, none, none⟩).2.1 (by decide),
   (LammpsLog.c7_amended_column_validation [⟨["Step"], [[1]]⟩]
      ⟨1, "Step", none, false, none, none, some ["Bogus"]⟩).2.2 (by decide)⟩

end
